import Mathlib

/-!
Verification of the parsing layer of `salt/modules/freebsd_status.py`.

The Python module is shallowly embedded below.  Pure text manipulation
(`str.split`, `str.strip`, `int(...)`, `float(...)`, list indexing with
Python semantics, dict insertion) is modelled by executable Lean
functions over `List Char` / `String`; fallible operations (Python
exceptions such as `IndexError`) are modelled with `Except PyErr`.
Each top-level parsing loop of the source is embedded as a structural
recursion over the list of input lines, taking the raw text produced by
the external collaborators (command output, pseudo-files) as input.
-/

deriving instance DecidableEq for Except

/-- Python exception kinds that the embedded code can raise. -/
inductive PyErr where
  | indexError
  | valueError
  | typeError
  | reError
deriving DecidableEq, Repr

/-- Result of `_number`: Python returns an int, a float, or the original
string.  No claim depends on float arithmetic, so the float variant keeps
the accepted token itself. -/
inductive NumVal where
  | int (n : Int)
  | float (t : String)
  | str (t : String)
deriving DecidableEq, Repr

/-- The six characters Python's `str.strip()` / `str.split()` treat as
whitespace. -/
def pyWs (c : Char) : Bool :=
  c == ' ' || c == '\t' || c == '\n' || c == '\r' || c == '\x0b' || c == '\x0c'

/-- Python `str.strip()` on a character list. -/
def stripL (l : List Char) : List Char :=
  ((l.dropWhile pyWs).reverse.dropWhile pyWs).reverse

/-- Python `str.strip()`. -/
def pyStrip (s : String) : String := String.mk (stripL s.data)

/-- Worker for `str.split()` with no argument: `cur` is the (reversed)
token currently being scanned. -/
def wsSplitAux : List Char → List Char → List (List Char)
  | [], cur => if cur == [] then [] else [cur.reverse]
  | c :: r, cur =>
    if pyWs c then
      if cur == [] then wsSplitAux r [] else cur.reverse :: wsSplitAux r []
    else wsSplitAux r (c :: cur)

/-- Python `str.split()` (split on whitespace runs, no empty tokens),
as character lists. -/
def wsSplitL (l : List Char) : List (List Char) := wsSplitAux l []

/-- Python `str.split()` returning `String` tokens. -/
def pySplitWs (s : String) : List String := (wsSplitL s.data).map String.mk

/-- Python `str.split(sep)` with an explicit one-character separator:
keeps empty pieces, `"".split(sep) == ['']`. -/
def splitOnL (sep : Char) : List Char → List (List Char)
  | [] => [[]]
  | c :: r =>
    if c == sep then [] :: splitOnL sep r
    else
      match splitOnL sep r with
      | [] => [[c]]
      | h :: t => (c :: h) :: t

/-- Python `str.split(sep)` on strings. -/
def pySplitOn (s : String) (sep : Char) : List String :=
  (splitOnL sep s.data).map String.mk

/-- Python `' '.join(...)`. -/
def joinSp : List String → String
  | [] => ""
  | [x] => x
  | x :: r => x ++ " " ++ joinSp r

/-- Python `str.startswith(p)`. -/
def startsWithPy (s p : String) : Bool := s.data.take p.data.length == p.data

/-- Python membership test `c in s` for a single character. -/
def containsC (c : Char) (l : List Char) : Bool := l.contains c

/-- Python `str.replace(c, '')`: remove every occurrence of one character. -/
def removeCharL (c : Char) (l : List Char) : List Char := l.filter (fun d => d != c)

/-- Python list subscript `l[n]` for a non-negative literal index:
raises `IndexError` when out of range. -/
def pyGetN (l : List α) (n : Nat) : Except PyErr α :=
  match l.drop n with
  | [] => Except.error PyErr.indexError
  | x :: _ => Except.ok x

/-- Python dict assignment `d[k] = v` on an association list: overwrite
the value at an existing key, otherwise append. -/
def dictSet : List (String × α) → String → α → List (String × α)
  | [], k, v => [(k, v)]
  | (k', v') :: r, k, v =>
    if k' == k then (k', v) :: r else (k', v') :: dictSet r k v

/-- Python dict lookup `d[k]` as an `Option`. -/
def dlookup : List (String × α) → String → Option α
  | [], _ => none
  | (k', v) :: r, k => if k' == k then some v else dlookup r k

/-- The keys of an association list. -/
def dkeys (d : List (String × α)) : List String := d.map Prod.fst

/-- Base-10 digit accumulation; fails on the first non-digit. -/
def parseDigitsAux : List Char → Nat → Option Nat
  | [], acc => some acc
  | c :: r, acc =>
    if c.isDigit then parseDigitsAux r (acc * 10 + (c.toNat - 48)) else none

/-- Parse a non-empty all-digit character list as a natural number. -/
def parseDigits : List Char → Option Nat
  | [] => none
  | l => parseDigitsAux l 0

/-- Model of Python 2 `int(text)` (base 10): surrounding whitespace is
stripped, an optional single `+`/`-` sign is allowed, then one or more
digits; anything else raises `ValueError` (here: `none`). -/
def pyIntParse (s : String) : Option Int :=
  match stripL s.data with
  | [] => none
  | c :: rest =>
    if c = '-' then (parseDigits rest).map (fun n => -(n : Int))
    else if c = '+' then (parseDigits rest).map (fun n => (n : Int))
    else (parseDigits (c :: rest)).map (fun n => (n : Int))

/-- The exponent tail of a float literal: optional sign then digits. -/
def expOkL : List Char → Bool
  | '+' :: r => r ≠ [] && r.all Char.isDigit
  | '-' :: r => r ≠ [] && r.all Char.isDigit
  | r => r ≠ [] && r.all Char.isDigit

/-- An unsigned decimal mantissa with optional fraction and exponent,
as accepted by Python's `float(...)`. -/
def mantExpOk (l : List Char) : Bool :=
  let ip := l.takeWhile Char.isDigit
  let r1 := l.dropWhile Char.isDigit
  match r1 with
  | [] => ip ≠ []
  | '.' :: r2 =>
    let fp := r2.takeWhile Char.isDigit
    let r3 := r2.dropWhile Char.isDigit
    (ip ≠ [] || fp ≠ []) &&
      (match r3 with
       | [] => true
       | 'e' :: r4 => expOkL r4
       | 'E' :: r4 => expOkL r4
       | _ => false)
  | 'e' :: r4 => ip ≠ [] && expOkL r4
  | 'E' :: r4 => ip ≠ [] && expOkL r4
  | _ => false

/-- An unsigned float body: `inf`, `infinity`, `nan` (case-insensitive)
or a decimal/exponent mantissa. -/
def floatBodyOk (l : List Char) : Bool :=
  let low := l.map Char.toLower
  low == "inf".data || low == "infinity".data || low == "nan".data || mantExpOk l

/-- Model of Python 2 `float(text)` acceptance: surrounding whitespace is
stripped and an optional sign is allowed before the body. -/
def pyFloatAccepts (s : String) : Bool :=
  match stripL s.data with
  | '+' :: r => floatBodyOk r
  | '-' :: r => floatBodyOk r
  | l => floatBodyOk l

/-- `_number` (source lines 23-36): try `int(text)`, then `float(text)`,
otherwise return the text unchanged.  Total by construction — the
embedding of the fact that no exception escapes. -/
def _number (text : String) : NumVal :=
  match pyIntParse text with
  | some n => NumVal.int n
  | none => if pyFloatAccepts text then NumVal.float text else NumVal.str text

/-- True exactly on `NumVal.int`. -/
def NumVal.isInt : NumVal → Bool
  | .int _ => true
  | _ => false

/-- True exactly on `NumVal.float`. -/
def NumVal.isFloat : NumVal → Bool
  | .float _ => true
  | _ => false

/-- True exactly on `NumVal.str`. -/
def NumVal.isStr : NumVal → Bool
  | .str _ => true
  | _ => false

/-- The spec's integer pattern, exactly as written: `^-?\d+$`. -/
def specIntRe (t : String) : Bool :=
  match t.data with
  | [] => false
  | c :: r =>
    if c = '-' then !r.isEmpty && r.all Char.isDigit
    else (c :: r).all Char.isDigit

/-- The amended integer pattern: after stripping surrounding whitespace,
`^[+-]?\d+$`.  Stated as a recogniser, independent of the parsing
function `pyIntParse`. -/
def amendedIntRe (t : String) : Bool :=
  match stripL t.data with
  | [] => false
  | c :: r =>
    if c = '-' then !r.isEmpty && r.all Char.isDigit
    else if c = '+' then !r.isEmpty && r.all Char.isDigit
    else (c :: r).all Char.isDigit

/-! ## `vmstats` (source lines 305-323) -/

/-- The parsing loop of `vmstats`: for each non-empty line,
`ret[comps[0]] = _number(comps[1])` (Python evaluates the right-hand
side, hence `comps[1]`, before the assignment target `comps[0]`). -/
def vmScan : List String → List (String × NumVal) → Except PyErr (List (String × NumVal))
  | [], ret => Except.ok ret
  | line :: rest, ret =>
    if line == "" then vmScan rest ret
    else do
      let comps := pySplitWs line
      let v ← pyGetN comps 1
      let k ← pyGetN comps 0
      vmScan rest (dictSet ret k (_number v))

/-! ## `w` (source lines 402-424) -/

/-- One logged-in session row, fields as in the source dict literal. -/
structure WRec where
  idle : String
  jcpu : String
  login : String
  pcpu : String
  tty : String
  user : String
  what : String
deriving DecidableEq, Repr

/-- The parsing loop of `w`: each non-empty row is split and fields are
read in the order of the source dict literal (`comps[3]`, `comps[4]`,
`comps[2]`, `comps[5]`, `comps[1]`, `comps[0]`, then the joined tail). -/
def wScan : List String → List WRec → Except PyErr (List WRec)
  | [], acc => Except.ok acc
  | row :: rest, acc =>
    if row == "" then wScan rest acc
    else do
      let comps := pySplitWs row
      let idle ← pyGetN comps 3
      let jcpu ← pyGetN comps 4
      let login ← pyGetN comps 2
      let pcpu ← pyGetN comps 5
      let tty ← pyGetN comps 1
      let user ← pyGetN comps 0
      wScan rest (acc ++ [⟨idle, jcpu, login, pcpu, tty, user, joinSp (comps.drop 6)⟩])

/-! ## `procs` (source lines 39-70) -/

/-- One process-listing record: the `user` and joined `cmd` fields. -/
structure ProcRec where
  user : String
  cmd : String
deriving DecidableEq, Repr

/-- The data loop of `procs` for fixed column indices: for each non-empty
line, `ret[comps[pind]] = dict(user=comps[uind], cmd=' '.join(comps[cind:]))`
(right-hand side evaluated first). -/
def procsLoop (uind pind cind : Nat) :
    List String → List (String × ProcRec) → Except PyErr (List (String × ProcRec))
  | [], ret => Except.ok ret
  | line :: rest, ret =>
    if line == "" then procsLoop uind pind cind rest ret
    else do
      let comps := pySplitWs line
      let user ← pyGetN comps uind
      let cmd := joinSp (comps.drop cind)
      let key ← pyGetN comps pind
      procsLoop uind pind cind rest (dictSet ret key ⟨user, cmd⟩)

/-- `procs`: pop the header line (`IndexError` on an empty listing),
resolve the `USER`/`UID`, `PID` and `COMMAND`/`CMD` column indices with
first-match priority and default 0, then run the data loop. -/
def procsRun (plines : List String) : Except PyErr (List (String × ProcRec)) :=
  match plines with
  | [] => Except.error PyErr.indexError
  | guide :: rest =>
    let g := pySplitWs guide
    let uind := if g.contains "USER" then g.indexOf "USER"
                else if g.contains "UID" then g.indexOf "UID" else 0
    let pind := if g.contains "PID" then g.indexOf "PID" else 0
    let cind := if g.contains "COMMAND" then g.indexOf "COMMAND"
                else if g.contains "CMD" then g.indexOf "CMD" else 0
    procsLoop uind pind cind rest []

/-! ## `netstats` (source lines 326-356) -/

/-- The inner field loop of `netstats`:
`for field in range(len(headers) - 1)`, skipping `field < 1`, sets
`row[headers[field]] = _number(comps[field])` (data index read before
header index, as in the source assignment). -/
def nsRowFields (headers comps : List String) :
    List Nat → List (String × NumVal) → Except PyErr (List (String × NumVal))
  | [], row => Except.ok row
  | f :: fs, row =>
    if f < 1 then nsRowFields headers comps fs row
    else do
      let v ← pyGetN comps f
      let hf ← pyGetN headers f
      nsRowFields headers comps fs (dictSet row hf (_number v))

/-- The header-tracking loop of `netstats`: `headers` starts as `['']`;
a line whose first token equals the current first header token is a data
line and emits one block keyed by the header token with its colons
removed, otherwise the line becomes the new header. -/
def nsScan : List String → List String → List (String × List (String × NumVal)) →
    Except PyErr (List (String × List (String × NumVal)))
  | [], _headers, ret => Except.ok ret
  | line :: rest, headers, ret =>
    if line == "" then nsScan rest headers ret
    else do
      let comps := pySplitWs line
      let c0 ← pyGetN comps 0
      let h0 ← pyGetN headers 0
      if c0 == h0 then do
        let row ← nsRowFields headers comps (List.range (headers.length - 1)) []
        let rowname := String.mk (removeCharL ':' h0.data)
        nsScan rest headers (dictSet ret rowname row)
      else nsScan rest comps ret

/-- `netstats` on the raw pseudo-file text: `read().split('\n')` then the
header-tracking loop with initial header `['']`. -/
def netstatsOfText (s : String) : Except PyErr (List (String × List (String × NumVal))) :=
  nsScan (pySplitOn s '\n') [""] []

/-! ## `netdev` (source lines 359-399) -/

/-- One network-interface record, fields in the order of the source dict
literal. -/
structure NetDevRec where
  iface : String
  rx_bytes : NumVal
  rx_compressed : NumVal
  rx_drop : NumVal
  rx_errs : NumVal
  rx_fifo : NumVal
  rx_frame : NumVal
  rx_multicast : NumVal
  rx_packets : NumVal
  tx_bytes : NumVal
  tx_carrier : NumVal
  tx_colls : NumVal
  tx_compressed : NumVal
  tx_drop : NumVal
  tx_errs : NumVal
  tx_fifo : NumVal
  tx_packets : NumVal
deriving DecidableEq, Repr

/-- The per-line transformation and record construction of `netdev`:
skip lines without a colon; `comps = line.split()`;
`comps[0] = line.split(':')[0].strip()`;
`comps.insert(1, line.split(':')[1].strip().split()[0])`; then read the
17 dict-literal fields in source order. -/
def netdevScan : List String → List (String × NetDevRec) →
    Except PyErr (List (String × NetDevRec))
  | [], ret => Except.ok ret
  | line :: rest, ret =>
    if line == "" then netdevScan rest ret
    else if !containsC ':' line.data then netdevScan rest ret
    else do
      let comps0 := pySplitWs line
      let name := pyStrip ((pySplitOn line ':').headD "")
      let afterColon ← pyGetN (pySplitOn line ':') 1
      let firstTok ← pyGetN (pySplitWs (pyStrip afterColon)) 0
      let comps ← match comps0 with
        | [] => Except.error PyErr.indexError
        | _ :: tail => Except.ok (name :: firstTok :: tail)
      let c1 ← pyGetN comps 1
      let c7 ← pyGetN comps 7
      let c4 ← pyGetN comps 4
      let c3 ← pyGetN comps 3
      let c5 ← pyGetN comps 5
      let c6 ← pyGetN comps 6
      let c8 ← pyGetN comps 8
      let c2 ← pyGetN comps 2
      let c9 ← pyGetN comps 9
      let c15 ← pyGetN comps 15
      let c14 ← pyGetN comps 14
      let c16 ← pyGetN comps 16
      let c12 ← pyGetN comps 12
      let c11 ← pyGetN comps 11
      let c13 ← pyGetN comps 13
      let c10 ← pyGetN comps 10
      netdevScan rest (dictSet ret name
        ⟨name, _number c1, _number c7, _number c4, _number c3, _number c5,
         _number c6, _number c8, _number c2, _number c9, _number c15,
         _number c14, _number c16, _number c12, _number c11, _number c13,
         _number c10⟩)

/-- The record `netdev` produces for a single line, when exactly one
record results. -/
def netdevRecOf (line : String) : Option NetDevRec :=
  match netdevScan [line] [] with
  | Except.ok [(_, r)] => some r
  | _ => none

/-! ## `cpustats` (source lines 132-186) -/

/-- One CPU time breakdown (`_cputime`, source lines 132-138). -/
structure CpuTime where
  user : NumVal
  nice : NumVal
  system : NumVal
  irq : NumVal
  idle : NumVal
deriving DecidableEq, Repr

/-- `_cputime`: apply `_number` to the five counter tokens. -/
def _cputime (user nice system irq idle : String) : CpuTime :=
  ⟨_number user, _number nice, _number system, _number irq, _number idle⟩

/-- The per-core fan-out loop of `cpustats` (source lines 155-157):
`for ncpu in range(len(cpus)/5): ret['cpu%d' % ncpu] =
_cputime(*cpus[ncpu*5:(ncpu+1)*5])`.  `fuel` counts the remaining
iterations, `i` is the current core index; unpacking a slice that is not
exactly five tokens long would be a `TypeError`. -/
def coreLoop (cpus : List String) (i : Nat) : Nat → Except PyErr (List (String × CpuTime))
  | 0 => Except.ok []
  | fuel + 1 =>
    match (cpus.drop (i * 5)).take 5 with
    | [a, b, c, d, e] => do
      let rest ← coreLoop cpus (i + 1) fuel
      Except.ok (("cpu" ++ toString i, _cputime a b c d e) :: rest)
    | _ => Except.error PyErr.typeError

/-- The per-core records of `cpustats`: integer (floor) division of the
token count by 5 gives the iteration count. -/
def cpuCoreRecords (cpus : List String) : Except PyErr (List (String × CpuTime)) :=
  coreLoop cpus 0 (cpus.length / 5)

/-- The per-core records as the spec describes them: core `i` takes
tokens `5*i .. 5*i+4` as user, nice, system, irq, idle, and the core
count is the floor of the token count divided by 5. -/
def coreSpec (cpus : List String) : List (String × CpuTime) :=
  (List.range (cpus.length / 5)).map fun i =>
    ("cpu" ++ toString i,
     _cputime (cpus.getD (5 * i) "") (cpus.getD (5 * i + 1) "")
       (cpus.getD (5 * i + 2) "") (cpus.getD (5 * i + 3) "") (cpus.getD (5 * i + 4) ""))

/-- Process counters of `cpustats` (source lines 173-184). -/
structure ProcCounts where
  processes : Nat
  procs_blocked : Nat
  procs_running : Nat
deriving DecidableEq, Repr

/-- The process-statistics loop of `cpustats`: rows whose fifth field is
`'0'` (kernel threads) are skipped; otherwise `'D' in pss[7]` increments
`procs_blocked`, `'R' in pss[7]` increments `procs_running`, and
`processes` is always incremented. -/
def procStatScan : List String → ProcCounts → Except PyErr ProcCounts
  | [], c => Except.ok c
  | l :: rest, c => do
    let pss := wsSplitL l.data
    let t4 ← pyGetN pss 4
    if t4 == ['0'] then procStatScan rest c
    else do
      let t7 ← pyGetN pss 7
      let b := if containsC 'D' t7 then c.procs_blocked + 1 else c.procs_blocked
      let r := if containsC 'R' t7 then c.procs_running + 1 else c.procs_running
      procStatScan rest ⟨c.processes + 1, b, r⟩

/-- A row that is counted: its fifth field is not `'0'`. -/
def isCountedRow (l : String) : Bool := (wsSplitL l.data).getD 4 [] != ['0']

/-- A counted row whose state-flags field contains `'D'`. -/
def isBlockedRow (l : String) : Bool :=
  isCountedRow l && containsC 'D' ((wsSplitL l.data).getD 7 [])

/-- A counted row whose state-flags field contains `'R'`. -/
def isRunningRow (l : String) : Bool :=
  isCountedRow l && containsC 'R' ((wsSplitL l.data).getD 7 [])

/-! ## `diskstats` (source lines 215-246) -/

/-- One block device record, the 14 fields of the source dict literal. -/
structure DiskStat where
  major : NumVal
  minor : NumVal
  device : NumVal
  reads_issued : NumVal
  reads_merged : NumVal
  sectors_read : NumVal
  ms_spent_reading : NumVal
  writes_completed : NumVal
  writes_merged : NumVal
  sectors_written : NumVal
  ms_spent_writing : NumVal
  io_in_progress : NumVal
  ms_spent_in_io : NumVal
  weighted_ms_spent_in_io : NumVal
deriving DecidableEq, Repr

/-- The record one `diskstats` line produces, keyed by `comps[2]`:
the 14 dict-literal fields are read in source order, then the key. -/
def diskstatsRecOf (comps : List String) : Except PyErr (String × DiskStat) := do
  let c0 ← pyGetN comps 0
  let c1 ← pyGetN comps 1
  let c2 ← pyGetN comps 2
  let c3 ← pyGetN comps 3
  let c4 ← pyGetN comps 4
  let c5 ← pyGetN comps 5
  let c6 ← pyGetN comps 6
  let c7 ← pyGetN comps 7
  let c8 ← pyGetN comps 8
  let c9 ← pyGetN comps 9
  let c10 ← pyGetN comps 10
  let c11 ← pyGetN comps 11
  let c12 ← pyGetN comps 12
  let c13 ← pyGetN comps 13
  let key ← pyGetN comps 2
  Except.ok (key,
    ⟨_number c0, _number c1, _number c2, _number c3, _number c4, _number c5,
     _number c6, _number c7, _number c8, _number c9, _number c10, _number c11,
     _number c12, _number c13⟩)

/-- Re-serialization of a disk record's 14 fields in the documented
order: major, minor, device, then the 11 counters. -/
def serializeDiskStat (r : DiskStat) : List NumVal :=
  [r.major, r.minor, r.device, r.reads_issued, r.reads_merged, r.sectors_read,
   r.ms_spent_reading, r.writes_completed, r.writes_merged, r.sectors_written,
   r.ms_spent_writing, r.io_in_progress, r.ms_spent_in_io, r.weighted_ms_spent_in_io]

/-! ## `diskusage` (source lines 249-302) -/

/-- Scan to the closing bracket of a character class: the characters
before the first `]`, and the remainder after it; `none` when no `]`
exists. -/
def scanToRBracket : List Char → Option (List Char × List Char)
  | [] => none
  | c :: r =>
    if c = ']' then some ([], r)
    else
      match scanToRBracket r with
      | none => none
      | some (s, rest) => some (c :: s, rest)

/-- The bracket-class scan of `fnmatch.translate`, applied to the
characters after a `[`: a leading `!` and a `]` placed right after it
belong to the class body, then everything up to the next `]`.  `none`
when no closing bracket exists — the `[` is then a literal. -/
def classSplit : List Char → Option (List Char × List Char)
  | '!' :: ']' :: r => (scanToRBracket r).map (fun p => ('!' :: ']' :: p.1, p.2))
  | '!' :: r => (scanToRBracket r).map (fun p => ('!' :: p.1, p.2))
  | ']' :: r => (scanToRBracket r).map (fun p => (']' :: p.1, p.2))
  | l => scanToRBracket l

/-- Split a class body into its negation flag (a leading `!`, turned
into `^` by `fnmatch.translate`) and its member characters.  A leading
`^` is escaped by `translate` and therefore stays a literal member. -/
def classContent (content : List Char) : Bool × List Char :=
  match content with
  | '!' :: r => (true, r)
  | l => (false, l)

/-- One-character membership in a regex character class, scanning the
members left to right: `a-b` forms a code-point range when the `-` is
neither first nor last, anything else is a literal member. -/
def classMemberMatch : List Char → Char → Bool
  | [], _ => false
  | a :: '-' :: b :: rest, c =>
    (decide (a.toNat ≤ c.toNat) && decide (c.toNat ≤ b.toNat)) || classMemberMatch rest c
  | a :: rest, c => (a == c) || classMemberMatch rest c

/-- Every `a-b` range of a class body is non-reversed — `re.compile`
raises `re.error` on a reversed range such as `z-a`. -/
def classRangesOk : List Char → Bool
  | a :: '-' :: b :: rest => decide (a.toNat ≤ b.toNat) && classRangesOk rest
  | _ :: rest => classRangesOk rest
  | [] => true

/-- Shell-glob matching on character lists, modelling
`re.compile(fnmatch.translate(p)).match(s)`: `*` matches any sequence,
`?` any single character, `[seq]` one character of a class (with `!`
negation and `a-b` ranges), an unclosed `[` and anything else itself;
anchored at both ends (the translated regex ends in a `\Z` anchor and
is matched from the start).  The fuel bounds the recursion depth. -/
def globMF : Nat → List Char → List Char → Bool
  | 0, _, _ => false
  | _ + 1, [], s => s.isEmpty
  | fuel + 1, '*' :: ps, [] => globMF fuel ps []
  | fuel + 1, '*' :: ps, c :: ss => globMF fuel ps (c :: ss) || globMF fuel ('*' :: ps) ss
  | fuel + 1, '[' :: ps, s =>
    match classSplit ps with
    | none =>
      match s with
      | [] => false
      | c :: ss => ('[' == c) && globMF fuel ps ss
    | some (content, rest) =>
      match s with
      | [] => false
      | c :: ss =>
        (if (classContent content).1 then !(classMemberMatch (classContent content).2 c)
         else classMemberMatch (classContent content).2 c) && globMF fuel rest ss
  | _ + 1, _ :: _, [] => false
  | fuel + 1, p :: ps, c :: ss => (p == '?' || p == c) && globMF fuel ps ss

/-- Shell-glob matching on strings; the fuel is always sufficient (each
step consumes at least one pattern or subject character). -/
def globMatch (p s : String) : Bool :=
  globMF (p.data.length + s.data.length + 1) p.data s.data

/-- The source feeds each translated pattern through
`.format("(%s)")` before compiling; any brace in the pattern survives
translation (escaped or inside a class body) and makes that `format`
call raise, before `re.compile` ever runs, since `'|'.join` consumes
all patterns first.  The exact exception class varies with the brace
arrangement (ValueError or KeyError); the model reports `valueError`. -/
def globBraceFree (p : String) : Bool :=
  p.data.all (fun c => !(c == '{') && !(c == '}'))

/-- Every bracket class of the pattern (found by the `translate` scan)
has only non-reversed ranges, so `re.compile` accepts it. -/
def patRangesOk : Nat → List Char → Bool
  | 0, _ => false
  | _ + 1, [] => true
  | fuel + 1, c :: ps =>
    if c = '[' then
      match classSplit ps with
      | none => patRangesOk fuel ps
      | some (content, rest) =>
        classRangesOk (classContent content).2 && patRangesOk fuel rest
    else patRangesOk fuel ps

/-- `re.compile` accepts the translated pattern. -/
def globRangesOk (p : String) : Bool := patRangesOk (p.data.length + 1) p.data

/-- Python `set.add` on a list model: append if absent. -/
def setAdd (sel : List String) (x : String) : List String :=
  if sel.contains x then sel else sel ++ [x]

/-- The mount-table scan of `diskusage`: lines with at least three
fields contribute their mountpoint (`comps[1]`) when the fstype
(`comps[2]`) matches any of the glob patterns. -/
def duScan (globs : List String) : List String → List String → List String
  | sel, [] => sel
  | sel, line :: rest =>
    let comps := pySplitWs line
    if 3 ≤ comps.length then
      if globs.any (fun p => globMatch p (comps.getD 2 "")) then
        duScan globs (setAdd sel (comps.getD 1 "")) rest
      else duScan globs sel rest
    else duScan globs sel rest

/-- The mount-point selection of `diskusage`: explicit arguments
beginning with `/` are selected directly; the remaining arguments are
fstype glob patterns (defaulting to `*` when no arguments are given).
When any pattern exists, the alternation regex is built and compiled
before the mount table is read: a brace-containing pattern makes the
`str.format` step raise (during `'|'.join`, hence before compiling) and
a reversed class range makes `re.compile` raise; otherwise the table is
scanned for matching fstypes. -/
def diskusageSelect (args mounts : List String) : Except PyErr (List String) :=
  let paths := args.filter (fun a => startsWithPy a "/")
  let globs := if args.isEmpty then ["*"] else args.filter (fun a => !(startsWithPy a "/"))
  if 0 < globs.length then
    if globs.all globBraceFree then
      if globs.all globRangesOk then Except.ok (duScan globs paths mounts)
      else Except.error PyErr.reError
    else Except.error PyErr.valueError
  else Except.ok paths

/-! ## `all_status` and `cpuinfo` (source lines 201-212 and 427-445) -/

/-- The names defined at module level in `freebsd_status.py`. -/
def statusModuleDefs : List String :=
  ["__opts__", "__virtual__", "_number", "procs", "custom", "uptime", "loadavg",
   "_cputime", "cpustats", "_meminfo", "cpuinfo", "diskstats", "diskusage",
   "vmstats", "netstats", "netdev", "w", "all_status", "pid"]

/-- The category operations `all_status` invokes, in source order. -/
def allStatusCallees : List String :=
  ["cpuinfo", "cpustats", "diskstats", "loadavg", "meminfo", "netdev",
   "netstats", "uptime", "vmstats", "w"]

/-- The callees of `all_status` that resolve to no module-level
definition: calling one raises `NameError`. -/
def allStatusUnresolved : List String :=
  allStatusCallees.filter (fun n => !(statusModuleDefs.contains n))

/-- The global names `cpuinfo` itself refers to in its body besides
`salt.utils.which`: `_cpuinfo_dmidecode` on the dmidecode branch, and the
never-assigned local `ret` on the fallback `return ret`. -/
def cpuinfoDanglingNames : List String := ["_cpuinfo_dmidecode", "ret"]

/-! ## Helper lemmas -/

theorem parseDigitsAux_isSome (l : List Char) :
    ∀ acc, (parseDigitsAux l acc).isSome = l.all Char.isDigit := by
  induction l with
  | nil => intro acc; simp [parseDigitsAux]
  | cons c r ih => intro acc; by_cases h : c.isDigit <;> simp [parseDigitsAux, h, ih]

theorem parseDigits_isSome (l : List Char) :
    (parseDigits l).isSome = (!l.isEmpty && l.all Char.isDigit) := by
  cases l with
  | nil => simp [parseDigits]
  | cons c r => simp [parseDigits, parseDigitsAux_isSome]

theorem pyIntParse_isSome (t : String) : (pyIntParse t).isSome = amendedIntRe t := by
  unfold pyIntParse amendedIntRe
  cases h : stripL t.data with
  | nil => simp
  | cons c r =>
    have hr := parseDigits_isSome r
    have hcr := parseDigits_isSome (c :: r)
    by_cases h1 : c = '-'
    · cases hp : parseDigits r <;> rw [hp] at hr <;> simp_all
    · by_cases h2 : c = '+'
      · cases hp : parseDigits r <;> rw [hp] at hr <;> simp_all
      · cases hp : parseDigits (c :: r) <;> rw [hp] at hcr <;> simp_all

theorem pyGetN_ok_of_lt {α : Type} (l : List α) (n : Nat) (d : α) (h : n < l.length) :
    pyGetN l n = Except.ok (l.getD n d) := by
  unfold pyGetN
  cases hd : l.drop n with
  | nil =>
    have := congrArg List.length hd
    simp at this
    omega
  | cons x t =>
    have hx : l[n]? = some x := by
      have h0 : (l.drop n)[0]? = l[n + 0]? := List.getElem?_drop l n 0
      rw [hd] at h0
      simpa using h0.symm
    simp [List.getD_eq_getElem?_getD, hx]

/-- C1: `all_status` cannot return its composite mapping: its callee list
names `meminfo`, which resolves to no module-level definition (only
`_meminfo` exists), so the call raises `NameError`; `cpuinfo` likewise
refers to the undefined `_cpuinfo_dmidecode` and to the never-assigned
`ret`. -/
theorem all_status_unresolved_callee :
    allStatusUnresolved = ["meminfo"] ∧
    allStatusCallees.contains "meminfo" = true ∧
    statusModuleDefs.contains "meminfo" = false ∧
    statusModuleDefs.contains "_meminfo" = true ∧
    cpuinfoDanglingNames.all (fun n => !(statusModuleDefs.contains n)) = true := by
  decide

/-- C4 counterexample: Python 2 `int()` accepts a leading `+` and
surrounding whitespace, so `_number` returns an Integer on tokens that do
not match the spec's `^-?\d+$`. -/
theorem number_spec_regex_counterexample :
    _number "+5" = NumVal.int 5 ∧ specIntRe "+5" = false ∧
    _number " 7 " = NumVal.int 7 ∧ specIntRe " 7 " = false := by decide

/-- C4 (amended): `_number` is total — every token yields exactly one of
int/float/text; it returns an Integer exactly when the token, stripped of
surrounding whitespace, matches `^[+-]?\d+$`; otherwise a Float exactly
when Python's float literal pattern accepts it; otherwise the text
unchanged. -/
theorem number_total_three_way (t : String) :
    (((_number t).isInt || (_number t).isFloat) || (_number t).isStr) = true ∧
    (_number t).isInt = amendedIntRe t ∧
    (_number t).isFloat = (!amendedIntRe t && pyFloatAccepts t) ∧
    ((_number t).isStr = true → _number t = NumVal.str t) := by
  have hp := pyIntParse_isSome t
  unfold _number
  cases hi : pyIntParse t with
  | some n =>
    rw [hi] at hp
    have hp2 : amendedIntRe t = true := by simpa using hp.symm
    simp [NumVal.isInt, NumVal.isFloat, NumVal.isStr, hp2]
  | none =>
    rw [hi] at hp
    have hp2 : amendedIntRe t = false := by simpa using hp.symm
    by_cases hf : pyFloatAccepts t <;>
      simp [hf, hp2, NumVal.isInt, NumVal.isFloat, NumVal.isStr]

/-- C3: with no whitespace after the colon the 16 counters land on the
documented fields; with whitespace after the colon the first counter is
inserted twice, shifting every later field — the two forms do not parse
to the same record (`rx_packets` becomes 1000, `tx_bytes` 0,
`tx_packets` 2000). -/
theorem netdev_colon_space_shifts :
    (netdevRecOf "eth0:1000 10 0 0 0 0 0 0 2000 20 0 0 0 0 0 0").map
        (fun r => (r.rx_bytes, r.rx_packets, r.tx_bytes, r.tx_packets)) =
      some (NumVal.int 1000, NumVal.int 10, NumVal.int 2000, NumVal.int 20) ∧
    (netdevRecOf "eth0: 1000 10 0 0 0 0 0 0 2000 20 0 0 0 0 0 0").map
        (fun r => (r.rx_bytes, r.rx_packets, r.tx_bytes, r.tx_packets)) =
      some (NumVal.int 1000, NumVal.int 1000, NumVal.int 0, NumVal.int 2000) ∧
    netdevRecOf "eth0:1000 10 0 0 0 0 0 0 2000 20 0 0 0 0 0 0" ≠
      netdevRecOf "eth0: 1000 10 0 0 0 0 0 0 2000 20 0 0 0 0 0 0" := by decide

/-- C10: parsing a 14-field disk-stats line and re-serializing the
record's fields in the documented order reproduces the coerced numeric
content of the line in the original order; the record is keyed by the
third field. -/
theorem diskstats_roundtrip (a0 a1 a2 a3 a4 a5 a6 a7 a8 a9 a10 a11 a12 a13 : String) :
    (diskstatsRecOf [a0, a1, a2, a3, a4, a5, a6, a7, a8, a9, a10, a11, a12, a13]).map
        (fun kr => serializeDiskStat kr.2) =
      Except.ok ([a0, a1, a2, a3, a4, a5, a6, a7, a8, a9, a10, a11, a12, a13].map _number) ∧
    (diskstatsRecOf [a0, a1, a2, a3, a4, a5, a6, a7, a8, a9, a10, a11, a12, a13]).map
        Prod.fst = Except.ok a2 :=
  ⟨rfl, rfl⟩

/-- C2 counterexample: on the spec's own example input the parser yields
block `Tcp` mapping only `a` (the final header column `b` is dropped by
the `range(len(headers) - 1)` loop) and an empty block `Udp`. -/
theorem netstats_example_counterexample :
    netstatsOfText "Tcp: a b\nTcp: 1 2\nUdp: x\nUdp: 9" =
      Except.ok [("Tcp", [("a", NumVal.int 1)]), ("Udp", [])] := by decide

/-- C5 counterexample: a non-empty `vmstats` line with a single field is
not skipped — the parse aborts with `IndexError`. -/
theorem vmstats_truncated_raises :
    vmScan ["bar"] [] = Except.error PyErr.indexError := by decide

/-- C8 counterexample: a row whose state-flags field contains both `D`
and `R` increments `procs_blocked` and `procs_running`, contradicting
"increments procs_blocked but not procs_running". -/
theorem procstat_both_flags_counterexample :
    procStatScan ["a b c d 1 f g DR"] ⟨0, 0, 0⟩ =
      Except.ok ⟨1, 1, 1⟩ := by decide

/-- C5 (amended): a non-fixed-width data line with fewer fields than
the parser needs is not skipped: the index error propagates and aborts
the parse (vmstats and w on any short non-empty line, procs under a
USER PID COMMAND header, netstats on a data line shorter than its
header); only fully empty lines are skipped. -/
theorem truncated_lines_raise :
    (∀ line : String, line ≠ "" → (pySplitWs line).length < 2 →
      vmScan [line] [] = Except.error PyErr.indexError) ∧
    (∀ line : String, line ≠ "" → (pySplitWs line).length < 6 →
      wScan [line] [] = Except.error PyErr.indexError) ∧
    (∀ line : String, line ≠ "" → (pySplitWs line).length < 2 →
      procsRun ["USER PID COMMAND", line] = Except.error PyErr.indexError) ∧
    nsScan ["Tcp: a b c", "Tcp: 1"] [""] [] = Except.error PyErr.indexError := by
  refine ⟨?_, ?_, ?_, by decide⟩
  · intro line h1 h2
    have hne : (line == "") = false := by simp [h1]
    unfold vmScan
    simp only [hne, Bool.false_eq_true, if_false]
    rcases hc : pySplitWs line with _ | ⟨a, rest⟩
    · rfl
    · rcases rest with _ | ⟨b, rest2⟩
      · rfl
      · rw [hc] at h2; simp at h2; omega
  · intro line h1 h2
    have hne : (line == "") = false := by simp [h1]
    unfold wScan
    simp only [hne, Bool.false_eq_true, if_false]
    rcases hc : pySplitWs line with _ | ⟨a, r1⟩
    · rfl
    · rcases r1 with _ | ⟨b, r2⟩
      · rfl
      · rcases r2 with _ | ⟨c, r3⟩
        · rfl
        · rcases r3 with _ | ⟨d, r4⟩
          · rfl
          · rcases r4 with _ | ⟨e, r5⟩
            · rfl
            · rcases r5 with _ | ⟨f, r6⟩
              · rfl
              · rw [hc] at h2; simp at h2; omega
  · intro line h1 h2
    have hred : procsRun ["USER PID COMMAND", line] = procsLoop 0 1 2 [line] [] := rfl
    rw [hred]
    have hne : (line == "") = false := by simp [h1]
    unfold procsLoop
    simp only [hne, Bool.false_eq_true, if_false]
    rcases hc : pySplitWs line with _ | ⟨a, rest⟩
    · rfl
    · rcases rest with _ | ⟨b, rest2⟩
      · rfl
      · rw [hc] at h2; simp at h2; omega

/-- Witness for the truncated-line theorem at concrete inputs. -/
theorem truncated_lines_raise_witness :
    vmScan ["foo"] [] = Except.error PyErr.indexError ∧
    wScan ["usr"] [] = Except.error PyErr.indexError ∧
    procsRun ["USER PID COMMAND", "x"] = Except.error PyErr.indexError :=
  ⟨truncated_lines_raise.1 "foo" (by decide) (by decide),
   truncated_lines_raise.2.1 "usr" (by decide) (by decide),
   truncated_lines_raise.2.2.1 "x" (by decide) (by decide)⟩
theorem getD_eq_getElem_of_lt {α : Type} (l : List α) (n : Nat) (d : α) (h : n < l.length) :
    l.getD n d = l[n] := by
  simp [List.getD_eq_getElem?_getD, List.getElem?_eq_getElem h]

theorem take5_window {α : Type} (l : List α) (m : Nat) (d : α) (h : m + 5 ≤ l.length) :
    (l.drop m).take 5 =
      [l.getD m d, l.getD (m+1) d, l.getD (m+2) d, l.getD (m+3) d, l.getD (m+4) d] := by
  rw [List.drop_eq_getElem_cons (by omega : m < l.length)]
  rw [List.drop_eq_getElem_cons (by omega : m + 1 < l.length)]
  rw [List.drop_eq_getElem_cons (by omega : m + 2 < l.length)]
  rw [List.drop_eq_getElem_cons (by omega : m + 3 < l.length)]
  rw [List.drop_eq_getElem_cons (by omega : m + 4 < l.length)]
  rw [getD_eq_getElem_of_lt l m d (by omega), getD_eq_getElem_of_lt l (m+1) d (by omega),
    getD_eq_getElem_of_lt l (m+2) d (by omega), getD_eq_getElem_of_lt l (m+3) d (by omega),
    getD_eq_getElem_of_lt l (m+4) d (by omega)]
  rfl

theorem coreLoop_spec (cpus : List String) :
    ∀ fuel i, 5 * (i + fuel) ≤ cpus.length →
      coreLoop cpus i fuel = Except.ok ((List.range' i fuel).map (fun j =>
        ("cpu" ++ toString j,
         _cputime (cpus.getD (5*j) "") (cpus.getD (5*j+1) "") (cpus.getD (5*j+2) "")
           (cpus.getD (5*j+3) "") (cpus.getD (5*j+4) "")))) := by
  intro fuel
  induction fuel with
  | zero => intro i h; rfl
  | succ f ih =>
    intro i h
    unfold coreLoop
    rw [Nat.mul_comm i 5]
    rw [take5_window cpus (5*i) "" (by omega)]
    rw [ih (i+1) (by omega)]
    rw [List.range'_succ i f 1]
    rfl

/-- C7: the per-core fan-out produces exactly one record per full
5-token window — floor division of the token count by 5 gives the core
count, core i is keyed cpu<i> from 0 and takes tokens 5i..5i+4 as
user, nice, system, irq, idle; the 15-token example yields cpu0, cpu1,
cpu2 with user 100, 200, 300 and no remainder record. -/
theorem cpu_fanout_floor_div :
    (∀ cpus : List String, cpuCoreRecords cpus = Except.ok (coreSpec cpus)) ∧
    (∀ cpus : List String, (coreSpec cpus).length = cpus.length / 5) ∧
    cpuCoreRecords (pySplitWs "100 1 2 3 4  200 5 6 7 8  300 9 10 11 12") =
      Except.ok [("cpu0", _cputime "100" "1" "2" "3" "4"),
                 ("cpu1", _cputime "200" "5" "6" "7" "8"),
                 ("cpu2", _cputime "300" "9" "10" "11" "12")] := by
  refine ⟨?_, ?_, by decide⟩
  · intro cpus
    have hd : cpus.length / 5 * 5 ≤ cpus.length := Nat.div_mul_le_self cpus.length 5
    unfold cpuCoreRecords coreSpec
    rw [coreLoop_spec cpus (cpus.length / 5) 0 (by omega)]
    rw [List.range_eq_range']
  · intro cpus
    simp [coreSpec]
/-- The bind of a Python operation that succeeded. -/
theorem except_bind_ok {α β : Type} (x : α) (f : α → Except PyErr β) :
    (do let y ← Except.ok x; f y) = f x := rfl

/-- C8 (amended): rows whose fifth field is '0' are excluded from all
three counters; every other row increments processes; the 'D' and 'R'
checks on the state-flags field are independent — a row containing 'D'
increments procs_blocked and one containing 'R' increments procs_running
(a row containing both increments both).  Rows are assumed to carry at
least 8 fields. -/
theorem procScan_counts (lines : List String) :
    ∀ c : ProcCounts, (∀ l ∈ lines, 8 ≤ (wsSplitL l.data).length) →
      procStatScan lines c = Except.ok
        ⟨c.processes + lines.countP isCountedRow,
         c.procs_blocked + lines.countP isBlockedRow,
         c.procs_running + lines.countP isRunningRow⟩ := by
  induction lines with
  | nil => intro c h; simp [procStatScan]
  | cons l rest ih =>
    intro c h
    have hlen : 8 ≤ (wsSplitL l.data).length := h l (by simp)
    have hrest : ∀ x ∈ rest, 8 ≤ (wsSplitL x.data).length := fun x hx => h x (by simp [hx])
    have h4 : pyGetN (wsSplitL l.data) 4 = Except.ok ((wsSplitL l.data).getD 4 []) :=
      pyGetN_ok_of_lt _ 4 [] (by omega)
    have h7 : pyGetN (wsSplitL l.data) 7 = Except.ok ((wsSplitL l.data).getD 7 []) :=
      pyGetN_ok_of_lt _ 7 [] (by omega)
    unfold procStatScan
    simp only [h4, h7, except_bind_ok]
    by_cases hc : ((wsSplitL l.data).getD 4 []) == ['0']
    · have hnc : isCountedRow l = false := by
        simp only [isCountedRow, bne, hc]
        rfl
      simp only [hc, if_true]
      rw [ih c hrest]
      simp [List.countP_cons, hnc, isBlockedRow, isRunningRow]
    · have hcf : (((wsSplitL l.data).getD 4 []) == ['0']) = false :=
        Bool.eq_false_iff.mpr hc
      have hyc : isCountedRow l = true := by
        simp only [isCountedRow, bne, hcf]
        rfl
      simp only [hcf, Bool.false_eq_true, if_false]
      by_cases hD : containsC 'D' ((wsSplitL l.data).getD 7 []) <;>
        by_cases hR : containsC 'R' ((wsSplitL l.data).getD 7 [])
      · have hb : isBlockedRow l = true := by simp only [isBlockedRow, hyc, Bool.true_and, hD]
        have hr2 : isRunningRow l = true := by simp only [isRunningRow, hyc, Bool.true_and, hR]
        simp only [hD, hR, if_true]
        rw [ih _ hrest]
        simp only [List.countP_cons, hb, hr2, hyc, if_true, Except.ok.injEq,
          ProcCounts.mk.injEq]
        refine ⟨by omega, by omega, by omega⟩
      · have hb : isBlockedRow l = true := by simp only [isBlockedRow, hyc, Bool.true_and, hD]
        have hr2 : isRunningRow l = false := by simp only [isRunningRow, hyc, Bool.true_and, hR]
        simp only [hD, hR, Bool.false_eq_true, if_true, if_false]
        rw [ih _ hrest]
        simp only [List.countP_cons, hb, hr2, hyc, Bool.false_eq_true, if_true, if_false,
          Except.ok.injEq, ProcCounts.mk.injEq]
        refine ⟨by omega, by omega, by omega⟩
      · have hb : isBlockedRow l = false := by simp only [isBlockedRow, hyc, Bool.true_and, hD]
        have hr2 : isRunningRow l = true := by simp only [isRunningRow, hyc, Bool.true_and, hR]
        simp only [hD, hR, Bool.false_eq_true, if_true, if_false]
        rw [ih _ hrest]
        simp only [List.countP_cons, hb, hr2, hyc, Bool.false_eq_true, if_true, if_false,
          Except.ok.injEq, ProcCounts.mk.injEq]
        refine ⟨by omega, by omega, by omega⟩
      · have hb : isBlockedRow l = false := by simp only [isBlockedRow, hyc, Bool.true_and, hD]
        have hr2 : isRunningRow l = false := by simp only [isRunningRow, hyc, Bool.true_and, hR]
        simp only [hD, hR, Bool.false_eq_true, if_false]
        rw [ih _ hrest]
        simp only [List.countP_cons, hb, hr2, hyc, Bool.false_eq_true, if_true, if_false,
          Except.ok.injEq, ProcCounts.mk.injEq]
        refine ⟨by omega, by omega, by omega⟩

/-- Witness for the process-counting theorem at a concrete listing. -/
theorem procScan_counts_witness :
    procStatScan ["u 1 2 3 0 5 6 R", "u 1 2 3 1 5 6 D"] ⟨0, 0, 0⟩ =
      Except.ok ⟨1, 1, 0⟩ := by
  have h := procScan_counts ["u 1 2 3 0 5 6 R", "u 1 2 3 1 5 6 D"] ⟨0, 0, 0⟩ (by decide)
  rw [h]
  decide
/-- Inserting a fresh key appends. -/
theorem dictSet_fresh {α : Type} (row : List (String × α)) (k : String) (v : α)
    (h : k ∉ dkeys row) : dictSet row k v = row ++ [(k, v)] := by
  induction row with
  | nil => rfl
  | cons p r ih =>
    obtain ⟨k', v'⟩ := p
    simp only [dkeys, List.map_cons, List.mem_cons, not_or] at h
    have hk : (k' == k) = false := by
      simp only [beq_eq_false_iff_ne]
      exact fun e => h.1 (e.symm)
    simp only [dictSet, hk, Bool.false_eq_true, if_false, List.cons_append, List.cons.injEq,
      true_and]
    exact ih h.2

/-- Distinct in-range positions of a duplicate-free list hold distinct
values. -/
theorem getD_ne_of_nodup (H : List String) (hnd : H.Nodup) (i j : Nat) (d : String)
    (hi : i < H.length) (hj : j < H.length) (hij : i ≠ j) : H.getD i d ≠ H.getD j d := by
  rw [getD_eq_getElem_of_lt H i d hi, getD_eq_getElem_of_lt H j d hj]
  intro he
  exact hij ((List.Nodup.getElem_inj_iff hnd).mp he)

/-- The inner `netstats` field loop over fields `j .. j+k-1` (all at
least 1): it maps each header token at those positions to the coerced
data value at the same position. -/
theorem nsRowFields_range' (H C : List String) (hnd : H.Nodup) (hlen : H.length - 1 ≤ C.length) :
    ∀ (k j : Nat) (row : List (String × NumVal)), 1 ≤ j → j + k ≤ H.length - 1 →
      (∀ f, j ≤ f → f < j + k → (H.getD f "") ∉ dkeys row) →
      nsRowFields H C (List.range' j k) row =
        Except.ok (row ++ (List.range' j k).map (fun f => (H.getD f "", _number (C.getD f "")))) := by
  intro k
  induction k with
  | zero => intro j row h1 h2 h3; simp [nsRowFields]
  | succ kk ih =>
    intro j row h1 h2 h3
    rw [List.range'_succ j kk 1]
    unfold nsRowFields
    rw [if_neg (by omega : ¬ (j < 1))]
    have hcj : pyGetN C j = Except.ok (C.getD j "") := pyGetN_ok_of_lt _ j "" (by omega)
    have hhj : pyGetN H j = Except.ok (H.getD j "") := pyGetN_ok_of_lt _ j "" (by omega)
    simp only [hcj, hhj, except_bind_ok]
    rw [dictSet_fresh row _ _ (h3 j (le_refl j) (by omega))]
    rw [ih (j+1) (row ++ [(H.getD j "", _number (C.getD j ""))]) (by omega) (by omega) ?fresh]
    · simp
    case fresh =>
      intro f hf1 hf2
      simp only [dkeys, List.map_append, List.map_cons, List.map_nil, List.mem_append,
        List.mem_cons, List.not_mem_nil, or_false, not_or]
      refine ⟨h3 f (by omega) (by omega), ?_⟩
      exact getD_ne_of_nodup H hnd f j "" (by omega) (by omega) (by omega)

/-- C2 (amended): on the example input the parser yields the blocks
`Tcp` and `Udp` (colon stripped), with `Tcp` mapping `a` to 1 only and
`Udp` empty; in general every header token except position 0 and the
final position is mapped to the coerced value at the same position of
the matching data line — the loop bound `len(headers) - 1` drops the
last column. -/
theorem netstats_excludes_last_column :
    ((netstatsOfText "Tcp: a b\nTcp: 1 2\nUdp: x\nUdp: 9").toOption.map
        (fun d => (dlookup d "Tcp", dlookup d "Udp", d.length))) =
      some (some [("a", NumVal.int 1)], some [], 2) ∧
    ∀ (H C : List String), H.Nodup → H.length - 1 ≤ C.length →
      nsRowFields H C (List.range (H.length - 1)) [] =
        Except.ok ((List.range' 1 (H.length - 2)).map
          (fun f => (H.getD f "", _number (C.getD f "")))) := by
  refine ⟨by decide, ?_⟩
  intro H C hnd hlen
  rcases Nat.lt_or_ge H.length 2 with h2 | h2
  · rw [show H.length - 1 = 0 from by omega, show H.length - 2 = 0 from by omega]
    rfl
  · rw [show H.length - 1 = (H.length - 2) + 1 from by omega]
    rw [List.range_eq_range']
    rw [List.range'_succ 0 (H.length - 2) 1]
    unfold nsRowFields
    rw [if_pos (by decide : (0:Nat) < 1)]
    rw [nsRowFields_range' H C hnd hlen (H.length - 2) 1 [] (le_refl 1) (by omega)
      (by intro f hf1 hf2; simp [dkeys])]
    simp

/-- Witness for the amended `netstats` theorem at a concrete block. -/
theorem netstats_excludes_last_column_witness :
    nsRowFields ["Tcp:", "a", "b", "c"] ["Tcp:", "1", "2", "3"]
        (List.range (["Tcp:", "a", "b", "c"].length - 1)) [] =
      Except.ok [("a", NumVal.int 1), ("b", NumVal.int 2)] := by
  have h := netstats_excludes_last_column.2 ["Tcp:", "a", "b", "c"] ["Tcp:", "1", "2", "3"]
    (by decide) (by decide)
  exact h.trans (by decide)
/-- Membership after a set-style insertion. -/
theorem setAdd_mem (sel : List String) (x y : String) :
    y ∈ setAdd sel x ↔ y ∈ sel ∨ y = x := by
  unfold setAdd
  by_cases h : sel.contains x
  · rw [if_pos h]
    have hx : x ∈ sel := List.elem_iff.mp h
    constructor
    · exact Or.inl
    · rintro (hy | rfl)
      · exact hy
      · exact hx
  · rw [if_neg h]
    simp [List.mem_append]

/-- Membership in the result of the mount-table scan: the initial
selection plus every mountpoint of a well-formed line whose fstype
matches some pattern. -/
theorem duScan_mem (globs : List String) (mounts : List String) :
    ∀ (sel : List String) (x : String),
      x ∈ duScan globs sel mounts ↔ x ∈ sel ∨
        ∃ line ∈ mounts, 3 ≤ (pySplitWs line).length ∧ x = (pySplitWs line).getD 1 "" ∧
          globs.any (fun p => globMatch p ((pySplitWs line).getD 2 "")) = true := by
  induction mounts with
  | nil => intro sel x; simp [duScan]
  | cons line rest ih =>
    intro sel x
    unfold duScan
    by_cases h3 : 3 ≤ (pySplitWs line).length
    · rw [if_pos h3]
      by_cases hm : globs.any (fun p => globMatch p ((pySplitWs line).getD 2 "")) = true
      · rw [if_pos hm, ih, setAdd_mem]
        simp only [List.mem_cons]
        constructor
        · rintro ((hy | rfl) | ⟨l, hl, hrest⟩)
          · exact Or.inl hy
          · exact Or.inr ⟨line, Or.inl rfl, h3, rfl, hm⟩
          · exact Or.inr ⟨l, Or.inr hl, hrest⟩
        · rintro (hy | ⟨l, (rfl | hl), hlen, rfl, hany⟩)
          · exact Or.inl (Or.inl hy)
          · exact Or.inl (Or.inr rfl)
          · exact Or.inr ⟨l, hl, hlen, rfl, hany⟩
      · rw [if_neg hm, ih]
        simp only [List.mem_cons]
        constructor
        · rintro (hy | ⟨l, hl, hrest⟩)
          · exact Or.inl hy
          · exact Or.inr ⟨l, Or.inr hl, hrest⟩
        · rintro (hy | ⟨l, (rfl | hl), hlen, rfl, hany⟩)
          · exact Or.inl hy
          · exact absurd hany hm
          · exact Or.inr ⟨l, hl, hlen, rfl, hany⟩
    · rw [if_neg h3, ih]
      simp only [List.mem_cons]
      constructor
      · rintro (hy | ⟨l, hl, hrest⟩)
        · exact Or.inl hy
        · exact Or.inr ⟨l, Or.inr hl, hrest⟩
      · rintro (hy | ⟨l, (rfl | hl), hlen, rfl, hany⟩)
        · exact Or.inl hy
        · exact absurd hlen h3
        · exact Or.inr ⟨l, hl, hlen, rfl, hany⟩

/-- A lone `*` pattern matches any subject once the fuel covers it. -/
theorem globMF_star (s : List Char) : ∀ fuel, s.length + 2 ≤ fuel → globMF fuel ['*'] s = true := by
  induction s with
  | nil =>
    intro fuel h
    match fuel, h with
    | f + 2, _ => rfl
  | cons c ss ih =>
    intro fuel h
    match fuel, h with
    | f + 1, h =>
      show (globMF f [] (c :: ss) || globMF f ['*'] ss) = true
      rw [ih f (by simp at h ⊢; omega)]
      simp

/-- The default pattern `*` matches every fstype. -/
theorem globMatch_star (s : String) : globMatch "*" s = true := by
  unfold globMatch
  exact globMF_star s.data _ (by simp; omega)

/-- C9 (amended): with no arguments `diskusage` selects every mountpoint
of the mount table (the default `*` pattern matches every fstype);
`ext?` selects exactly the ext2/ext3/ext4 mountpoints of the example
table, not ext or extfs; `ext[23]` selects the ext2 and ext3 mountpoints;
and for glob-pattern arguments whose translation compiles — no braces
(the stray `str.format` step otherwise raises before the table is read)
and no reversed class range (`re.compile` otherwise raises) — the
selected set is the union of the explicit `/`-arguments and the
mountpoints whose fstype matches some glob-pattern argument. -/
theorem diskusage_union_selection :
    (∀ (mounts : List String) (x : String),
      ∃ sel, diskusageSelect [] mounts = Except.ok sel ∧
        (x ∈ sel ↔
          ∃ line ∈ mounts, 3 ≤ (pySplitWs line).length ∧ x = (pySplitWs line).getD 1 "")) ∧
    diskusageSelect ["ext?"] ["/dev/a / ext2", "/dev/b /b ext3", "/dev/c /c ext4",
      "/dev/d /d ext", "/dev/e /e extfs"] = Except.ok ["/", "/b", "/c"] ∧
    diskusageSelect ["ext[23]"] ["/dev/a / ext2", "/dev/b /b ext3", "/dev/c /c ext4"] =
      Except.ok ["/", "/b"] ∧
    (∀ (args mounts : List String) (x : String), args ≠ [] →
      (args.filter (fun a => !(startsWithPy a "/"))).all globBraceFree = true →
      (args.filter (fun a => !(startsWithPy a "/"))).all globRangesOk = true →
      ∃ sel, diskusageSelect args mounts = Except.ok sel ∧
        (x ∈ sel ↔
          x ∈ args.filter (fun a => startsWithPy a "/") ∨
          ∃ line ∈ mounts, 3 ≤ (pySplitWs line).length ∧ x = (pySplitWs line).getD 1 "" ∧
            (args.filter (fun a => !(startsWithPy a "/"))).any
              (fun g => globMatch g ((pySplitWs line).getD 2 "")) = true)) := by
  refine ⟨?_, by decide, by decide, ?_⟩
  · intro mounts x
    refine ⟨duScan ["*"] [] mounts, rfl, ?_⟩
    rw [duScan_mem]
    simp [globMatch_star]
  · intro args mounts x hne hbf hro
    have hempty : args.isEmpty = false := by
      cases args with
      | nil => exact absurd rfl hne
      | cons a r => rfl
    unfold diskusageSelect
    rw [hempty]
    simp only [Bool.false_eq_true, if_false]
    by_cases hg : 0 < (args.filter (fun a => !(startsWithPy a "/"))).length
    · rw [if_pos hg, if_pos hbf, if_pos hro]
      refine ⟨_, rfl, ?_⟩
      rw [duScan_mem]
    · rw [if_neg hg]
      have hfe : args.filter (fun a => !(startsWithPy a "/")) = [] :=
        List.length_eq_zero.mp (by omega)
      refine ⟨_, rfl, ?_⟩
      simp [hfe]

/-- C9 counterexample: "ext{" is a valid fnmatch pattern (braces are
literal glob characters, and it matches the fstype "ext{"), yet the
source's stray `.format("(%s)")` call raises on it before any selection
is made — no union of paths and matched mountpoints is returned. -/
theorem diskusage_brace_counterexample :
    diskusageSelect ["ext\x7b"] ["/dev/a / ext\x7b"] = Except.error PyErr.valueError ∧
    globMatch "ext\x7b" "ext\x7b" = true := by decide

/-- Witness for the selection-union theorem at concrete arguments. -/
theorem diskusage_union_selection_witness :
    ∃ sel, diskusageSelect ["/x", "ext?"] ["/dev/a / ext2"] = Except.ok sel ∧
      "/x" ∈ sel ∧ "/" ∈ sel := by
  obtain ⟨sel, hsel, hiff⟩ := diskusage_union_selection.2.2.2 ["/x", "ext?"]
    ["/dev/a / ext2"] "/x" (by decide) (by decide) (by decide)
  obtain ⟨sel2, hsel2, hiff2⟩ := diskusage_union_selection.2.2.2 ["/x", "ext?"]
    ["/dev/a / ext2"] "/" (by decide) (by decide) (by decide)
  have hse : sel = sel2 := by
    rw [hsel] at hsel2
    exact Except.ok.inj hsel2
  refine ⟨sel, hsel, hiff.mpr (Or.inl (by decide)), ?_⟩
  rw [hse]
  exact hiff2.mpr (Or.inr ⟨"/dev/a / ext2", by decide, by decide, by decide, by decide⟩)
/-- Witness for the three-way coercion theorem at concrete tokens. -/
theorem number_total_three_way_witness :
    _number "abc" = NumVal.str "abc" ∧ (_number "abc").isStr = true :=
  ⟨(number_total_three_way "abc").2.2.2 (by decide), by decide⟩
